import Mathlib

/-!
Shallow embedding of the PIFO pipeline stage (src/pifo_pipeline_stage.h).

The repository source under src/ contains only pifo_pipeline_stage.h.
The packet type (field_container.h, from the Banzai headers), the
priority-queue discipline (priority_queue.h) and the calendar-queue
discipline (calendar_queue.h) are referenced by the stage but are not
under src/; those parts are modelled from the specification, with a
doc comment on each such definition saying so.

Exceptions from C plus plus are modelled with Except: the state-passing
convention is that every member function of PIFOPipelineStage returns the
post-call object state (unchanged when the call throws before mutating,
which is what the source does) together with the result or error.
-/

namespace PIFO

/-- Modelled from the spec: the packet type PIFOPacket comes from
field_container.h (a Banzai header), which is not under src/. The spec
describes it as an entity supporting lookup of a named field yielding a
comparable (integral) value. We model it as a finite association of field
names to integer values. -/
structure PIFOPacket where
  fields : List (String × Int)
deriving DecidableEq

/-- Modelled from the spec: field access on a packet. Returns the value of a
named field when the packet exposes it, and none when it does not. -/
def PIFOPacket.getField (p : PIFOPacket) (name : String) : Option Int :=
  p.fields.lookup name

/-- Failure conditions surfaced to the caller of a stage operation.
outOfRange embeds a std out_of_range exception: the source raises it from
vector at (queue id bounds) and from map at (lookup-table miss, the
condition the spec calls NoRoute). missingField and staleSchedule are
modelled from the spec for the parts outside src/: the MissingField
condition when a packet lacks the configured lookup field, and the
StaleSchedule condition when a calendar enqueue names a release tick that
has already passed. -/
inductive StageExn where
  | outOfRange
  | missingField
  | staleSchedule
deriving DecidableEq

/-- Opcode: whether we are doing an enqueue, dequeue or transmit
(src/pifo_pipeline_stage.h, enum class Operation). -/
inductive Operation where
  | ENQ
  | DEQ
  | TRANSMIT
deriving DecidableEq

/-- Discriminator between the two queue disciplines
(src/pifo_pipeline_stage.h, enum class QueueType). -/
inductive QueueType where
  | PRIORITY_QUEUE
  | CALENDAR_QUEUE
deriving DecidableEq

/-- Arguments to enqueue or dequeue from a particular stage
(src/pifo_pipeline_stage.h, struct PIFOArguments). -/
structure PIFOArguments where
  stage_id : Nat
  q_type : QueueType
  queue_id : Nat
deriving DecidableEq

/-- Next-hop information: which operation and which destinations
(src/pifo_pipeline_stage.h, struct NextHop). -/
structure NextHop where
  op : Operation
  pifo_arguments : List PIFOArguments
deriving DecidableEq

/-- Modelled from the spec: priority_queue.h is not under src/. State is the
multiset of pending elements, kept as the list of (item, priority,
enqueue tick) triples in insertion order. -/
structure PriorityQueue where
  elems : List (PIFOPacket × Nat × Nat)
deriving DecidableEq

/-- A default-constructed priority queue is empty. -/
def PriorityQueue.empty : PriorityQueue := ⟨[]⟩

/-- Modelled from the spec: priority-queue enqueue inserts the triple and
always succeeds (unbounded). -/
def PriorityQueue.enq (q : PriorityQueue) (item : PIFOPacket) (prio tick : Nat) :
    PriorityQueue :=
  ⟨q.elems ++ [(item, prio, tick)]⟩

/-- Strict ordering on (priority, enqueue tick) keys: lower priority value
served first, ties broken by earlier enqueue tick. -/
def keyLt (a b : Nat × Nat) : Bool :=
  a.1 < b.1 || (a.1 == b.1 && a.2 < b.2)

/-- Modelled from the spec: priority-queue dequeue removes and returns the
element with the least (priority, tick) key, remaining ties broken by
insertion order; absent on an empty queue. Returns the post state and the
optional result. -/
def PriorityQueue.deq (q : PriorityQueue) (_tick : Nat) :
    PriorityQueue × Option PIFOPacket :=
  match q.elems with
  | [] => (q, none)
  | e :: es =>
    let best := es.foldl (fun acc x => if keyLt (x.2.1, x.2.2) (acc.2.1, acc.2.2) then x else acc) e
    (⟨q.elems.erase best⟩, some best.1)

/-- Modelled from the spec: calendar_queue.h is not under src/. State is a
sparse bucket structure from release tick to the FIFO bucket of items
scheduled for that tick (kept sorted by tick, buckets nonempty), plus a
monotonically advancing cursor. -/
structure CalendarQueue where
  buckets : List (Nat × List PIFOPacket)
  cursor : Nat
deriving DecidableEq

/-- A default-constructed calendar queue is empty with the cursor at zero. -/
def CalendarQueue.empty : CalendarQueue := ⟨[], 0⟩

/-- Insert an item at the end of the bucket for its release tick, keeping
the bucket list sorted by tick. -/
def addToBucket : List (Nat × List PIFOPacket) → Nat → PIFOPacket →
    List (Nat × List PIFOPacket)
  | [], k, x => [(k, [x])]
  | (k2, b) :: rest, k, x =>
    if k < k2 then (k, [x]) :: (k2, b) :: rest
    else if k = k2 then (k2, b ++ [x]) :: rest
    else (k2, b) :: addToBucket rest k x

/-- Modelled from the spec: calendar-queue enqueue interprets the priority
value as the target release tick and appends the item to that bucket;
an enqueue whose release tick is earlier than the current tick fails with
the StaleSchedule condition, leaving the queue unchanged. -/
def CalendarQueue.enq (q : CalendarQueue) (item : PIFOPacket) (prio tick : Nat) :
    CalendarQueue × Except StageExn Unit :=
  if prio < tick then (q, Except.error StageExn.staleSchedule)
  else ({ q with buckets := addToBucket q.buckets prio item }, Except.ok ())

/-- Modelled from the spec: calendar-queue dequeue advances the cursor to
max(cursor, tick), then pops FIFO from the earliest bucket whose release
tick is at or before the advanced cursor, reclaiming the bucket when it
empties; absent when no such bucket exists. -/
def CalendarQueue.deq (q : CalendarQueue) (tick : Nat) :
    CalendarQueue × Option PIFOPacket :=
  let c := max q.cursor tick
  match q.buckets with
  | [] => ({ q with cursor := c }, none)
  | (k, b) :: rest =>
    if k ≤ c then
      match b with
      | [] => ({ buckets := rest, cursor := c }, none)
      | [x] => ({ buckets := rest, cursor := c }, some x)
      | x :: y :: ys => ({ buckets := (k, y :: ys) :: rest, cursor := c }, some x)
    else ({ q with cursor := c }, none)

/-- Look-up table from a field value to a next hop
(src/pifo_pipeline_stage.h, class LookUpTable). The std map is embedded as
an association list with lookup. -/
structure LookUpTable where
  look_up_field_name : String
  look_up_table : List (Int × NextHop)
deriving DecidableEq

/-- LookUpTable lookup (src/pifo_pipeline_stage.h line 70): evaluates the
packet field access first; the Banzai accessor failing on an absent field
is modelled from the spec as the missingField condition. A present value
absent from the table raises outOfRange (map at; the condition the spec
calls NoRoute). -/
def LookUpTable.lookup (t : LookUpTable) (packet : PIFOPacket) :
    Except StageExn NextHop :=
  match packet.getField t.look_up_field_name with
  | none => Except.error StageExn.missingField
  | some v =>
    match t.look_up_table.lookup v with
    | none => Except.error StageExn.outOfRange
    | some nh => Except.ok nh

/-- A stage of PIFOs (src/pifo_pipeline_stage.h, class PIFOPipelineStage):
a bank of priority queues, a bank of calendar queues, a look-up table and
an injected priority-computation function. -/
structure PIFOPipelineStage where
  priority_queue_bank : List PriorityQueue
  calendar_queue_bank : List CalendarQueue
  next_hop_lut : LookUpTable
  prio_computer : PIFOPacket → Nat

/-- Constructor (src/pifo_pipeline_stage.h lines 93 to 101): the two banks
are sized by num_prio_queues and num_cal_queues with default-constructed
queues, and the table and priority function are stored. -/
def PIFOPipelineStage.mk_stage (num_prio_queues num_cal_queues : Nat)
    (lut_field_name : String) (lut_initializer : List (Int × NextHop))
    (t_prio_computer : PIFOPacket → Nat) : PIFOPipelineStage :=
  { priority_queue_bank := List.replicate num_prio_queues PriorityQueue.empty
    calendar_queue_bank := List.replicate num_cal_queues CalendarQueue.empty
    next_hop_lut := ⟨lut_field_name, lut_initializer⟩
    prio_computer := t_prio_computer }

/-- Enqueue (src/pifo_pipeline_stage.h lines 106 to 116). The source
computes prio by calling prio_computer_ on the packet as its first
statement, before the branch on q_type and before vector at checks the
queue id, then forwards (packet, prio, tick) to the addressed queue.
The middle component of the result records, in order, the arguments the
priority function was applied to during the call; the first component is
the object state after the call (unchanged when the call throws, since
every throw in the source happens before any mutation). -/
def PIFOPipelineStage.enq (s : PIFOPipelineStage) (q_type : QueueType)
    (queue_id : Nat) (packet : PIFOPacket) (tick : Nat) :
    PIFOPipelineStage × List PIFOPacket × Except StageExn Unit :=
  let prio := s.prio_computer packet
  match q_type with
  | QueueType.PRIORITY_QUEUE =>
    match s.priority_queue_bank[queue_id]? with
    | none => (s, [packet], Except.error StageExn.outOfRange)
    | some q =>
        ({ s with priority_queue_bank :=
             s.priority_queue_bank.set queue_id (q.enq packet prio tick) },
         [packet], Except.ok ())
  | QueueType.CALENDAR_QUEUE =>
    match s.calendar_queue_bank[queue_id]? with
    | none => (s, [packet], Except.error StageExn.outOfRange)
    | some q =>
        match q.enq packet prio tick with
        | (q2, Except.ok _) =>
            ({ s with calendar_queue_bank :=
                 s.calendar_queue_bank.set queue_id q2 },
             [packet], Except.ok ())
        | (_, Except.error e) => (s, [packet], Except.error e)

/-- Dequeue (src/pifo_pipeline_stage.h lines 120 to 127): vector at checks
the queue id, then the call forwards to the addressed queue and returns
its optional result unchanged. -/
def PIFOPipelineStage.deq (s : PIFOPipelineStage) (q_type : QueueType)
    (queue_id : Nat) (tick : Nat) :
    PIFOPipelineStage × Except StageExn (Option PIFOPacket) :=
  match q_type with
  | QueueType.PRIORITY_QUEUE =>
    match s.priority_queue_bank[queue_id]? with
    | none => (s, Except.error StageExn.outOfRange)
    | some q =>
        let r := q.deq tick
        ({ s with priority_queue_bank :=
             s.priority_queue_bank.set queue_id r.1 }, Except.ok r.2)
  | QueueType.CALENDAR_QUEUE =>
    match s.calendar_queue_bank[queue_id]? with
    | none => (s, Except.error StageExn.outOfRange)
    | some q =>
        let r := q.deq tick
        ({ s with calendar_queue_bank :=
             s.calendar_queue_bank.set queue_id r.1 }, Except.ok r.2)

/-- Find the next hop (src/pifo_pipeline_stage.h line 147): delegates to
the look-up table. The member function is const-qualified in the source
(as are LookUpTable lookup and the packet accessor it calls), so the
state-passing embedding threads the object state through unchanged. -/
def PIFOPipelineStage.find_next_hop (s : PIFOPipelineStage) (packet : PIFOPacket) :
    PIFOPipelineStage × Except StageExn NextHop :=
  (s, s.next_hop_lut.lookup packet)

/-- Concrete packet used by the witnesses: class 1, prio 7. -/
def pktA : PIFOPacket := ⟨[("class", 1), ("prio", 7)]⟩

/-- Concrete packet agreeing with pktA on the class field only. -/
def pktB : PIFOPacket := ⟨[("class", 1), ("prio", 9), ("extra", 4)]⟩

/-- Concrete packet that does not expose the class field. -/
def pktNoClass : PIFOPacket := ⟨[("prio", 7)]⟩

/-- Concrete next hop: transmit. -/
def nhTransmit : NextHop := ⟨Operation.TRANSMIT, []⟩

/-- Concrete next hop: enqueue into stage 1, calendar queue 0. -/
def nhEnq : NextHop := ⟨Operation.ENQ, [⟨1, QueueType.CALENDAR_QUEUE, 0⟩]⟩

/-- Concrete stage used by the witnesses: two queues per bank, lookup on
the class field, priority taken from the prio field. -/
def sampleStage : PIFOPipelineStage :=
  PIFOPipelineStage.mk_stage 2 2 "class" [(0, nhTransmit), (1, nhEnq)]
    (fun p => ((p.getField "prio").getD 0).toNat)

/-- C1: for every stage, queue id within the selected bank, packet and tick,
enq computes the priority with the injected priority function and forwards
(packet, priority, tick) to the enqueue of the queue at that index of the
bank selected by the queue type (priority bank for PRIORITY_QUEUE, calendar
bank for CALENDAR_QUEUE), producing no value beyond the queue mutation:
for the priority bank the post state replaces exactly that queue by its
queue-level enqueue; for the calendar bank the queue-level outcome is
forwarded unchanged and the post state replaces that queue on success. -/
theorem enq_forwards_inrange (s : PIFOPipelineStage) (queue_id : Nat)
    (packet : PIFOPacket) (tick : Nat) :
    (∀ q, s.priority_queue_bank[queue_id]? = some q →
      s.enq QueueType.PRIORITY_QUEUE queue_id packet tick =
        ({ s with priority_queue_bank :=
             (s.priority_queue_bank.set queue_id
               (q.enq packet (s.prio_computer packet) tick)) },
         [packet], Except.ok ())) ∧
    (∀ q, s.calendar_queue_bank[queue_id]? = some q →
      (s.enq QueueType.CALENDAR_QUEUE queue_id packet tick).2 =
        ([packet], (q.enq packet (s.prio_computer packet) tick).2) ∧
      ((q.enq packet (s.prio_computer packet) tick).2 = Except.ok () →
        (s.enq QueueType.CALENDAR_QUEUE queue_id packet tick).1 =
          { s with calendar_queue_bank :=
              (s.calendar_queue_bank.set queue_id
                (q.enq packet (s.prio_computer packet) tick).1) }) ∧
      (∀ e, (q.enq packet (s.prio_computer packet) tick).2 = Except.error e →
        (s.enq QueueType.CALENDAR_QUEUE queue_id packet tick).1 = s)) := by
  constructor
  · intro q hq
    simp [PIFOPipelineStage.enq, hq]
  · intro q hq
    rcases hqe : q.enq packet (s.prio_computer packet) tick with ⟨q2, r⟩
    cases r with
    | ok u =>
      refine ⟨?_, ?_, ?_⟩ <;>
        simp [PIFOPipelineStage.enq, hq, hqe]
    | error e =>
      refine ⟨?_, ?_, ?_⟩ <;>
        simp [PIFOPipelineStage.enq, hq, hqe]

/-- Witness for enq_forwards_inrange at a concrete stage, queue id 0,
packet and tick. -/
theorem enq_forwards_inrange_witness :
    sampleStage.enq QueueType.PRIORITY_QUEUE 0 pktA 3 =
      ({ sampleStage with priority_queue_bank :=
           (sampleStage.priority_queue_bank.set 0
             (PriorityQueue.empty.enq pktA (sampleStage.prio_computer pktA) 3)) },
       [pktA], Except.ok ()) :=
  (enq_forwards_inrange sampleStage 0 pktA 3).1 PriorityQueue.empty rfl

/-- C2: for every stage, queue id within the selected bank and tick, deq
forwards to the dequeue of the queue at that index of the selected bank and
returns its optional result unchanged; moreover the outcome and the queue
effects depend only on the two banks, so neither the priority function nor
the lookup table takes part in a dequeue. -/
theorem deq_forwards_inrange (s : PIFOPipelineStage) (queue_id tick : Nat) :
    (∀ q, s.priority_queue_bank[queue_id]? = some q →
      s.deq QueueType.PRIORITY_QUEUE queue_id tick =
        ({ s with priority_queue_bank :=
             s.priority_queue_bank.set queue_id (q.deq tick).1 },
         Except.ok (q.deq tick).2)) ∧
    (∀ q, s.calendar_queue_bank[queue_id]? = some q →
      s.deq QueueType.CALENDAR_QUEUE queue_id tick =
        ({ s with calendar_queue_bank :=
             s.calendar_queue_bank.set queue_id (q.deq tick).1 },
         Except.ok (q.deq tick).2)) ∧
    (∀ s2 : PIFOPipelineStage,
      s2.priority_queue_bank = s.priority_queue_bank →
      s2.calendar_queue_bank = s.calendar_queue_bank →
      ∀ q_type,
        (s2.deq q_type queue_id tick).2 = (s.deq q_type queue_id tick).2 ∧
        (s2.deq q_type queue_id tick).1.priority_queue_bank =
          (s.deq q_type queue_id tick).1.priority_queue_bank ∧
        (s2.deq q_type queue_id tick).1.calendar_queue_bank =
          (s.deq q_type queue_id tick).1.calendar_queue_bank) := by
  refine ⟨?_, ?_, ?_⟩
  · intro q hq
    simp [PIFOPipelineStage.deq, hq]
  · intro q hq
    simp [PIFOPipelineStage.deq, hq]
  · intro s2 hp hc q_type
    cases q_type with
    | PRIORITY_QUEUE =>
      cases hq : s.priority_queue_bank[queue_id]? with
      | none =>
        refine ⟨?_, ?_, ?_⟩ <;> simp [PIFOPipelineStage.deq, hq, hp, hc]
      | some q =>
        refine ⟨?_, ?_, ?_⟩ <;> simp [PIFOPipelineStage.deq, hq, hp, hc]
    | CALENDAR_QUEUE =>
      cases hq : s.calendar_queue_bank[queue_id]? with
      | none =>
        refine ⟨?_, ?_, ?_⟩ <;> simp [PIFOPipelineStage.deq, hq, hp, hc]
      | some q =>
        refine ⟨?_, ?_, ?_⟩ <;> simp [PIFOPipelineStage.deq, hq, hp, hc]

/-- Witness for deq_forwards_inrange at a concrete stage, queue id 0 and
tick. -/
theorem deq_forwards_inrange_witness :
    sampleStage.deq QueueType.PRIORITY_QUEUE 0 3 =
      ({ sampleStage with priority_queue_bank :=
           sampleStage.priority_queue_bank.set 0 (PriorityQueue.empty.deq 3).1 },
       Except.ok (PriorityQueue.empty.deq 3).2) :=
  (deq_forwards_inrange sampleStage 0 3).1 PriorityQueue.empty rfl

/-- C3: every enq or deq whose queue id is at least the size of the bank
selected by the queue type fails with the out-of-range condition and
returns the stage state unchanged, so no queue in either bank is
modified. -/
theorem enq_deq_out_of_range (s : PIFOPipelineStage) (queue_id : Nat)
    (packet : PIFOPacket) (tick : Nat) :
    (s.priority_queue_bank.length ≤ queue_id →
      s.enq QueueType.PRIORITY_QUEUE queue_id packet tick =
        (s, [packet], Except.error StageExn.outOfRange) ∧
      s.deq QueueType.PRIORITY_QUEUE queue_id tick =
        (s, Except.error StageExn.outOfRange)) ∧
    (s.calendar_queue_bank.length ≤ queue_id →
      s.enq QueueType.CALENDAR_QUEUE queue_id packet tick =
        (s, [packet], Except.error StageExn.outOfRange) ∧
      s.deq QueueType.CALENDAR_QUEUE queue_id tick =
        (s, Except.error StageExn.outOfRange)) := by
  constructor
  · intro h
    have hq : s.priority_queue_bank[queue_id]? = none := List.getElem?_eq_none h
    exact ⟨by simp [PIFOPipelineStage.enq, hq], by simp [PIFOPipelineStage.deq, hq]⟩
  · intro h
    have hq : s.calendar_queue_bank[queue_id]? = none := List.getElem?_eq_none h
    exact ⟨by simp [PIFOPipelineStage.enq, hq], by simp [PIFOPipelineStage.deq, hq]⟩

/-- Witness for enq_deq_out_of_range: the sample stage has two queues per
bank, so queue id 5 is out of range for both operations. -/
theorem enq_deq_out_of_range_witness :
    sampleStage.enq QueueType.PRIORITY_QUEUE 5 pktA 3 =
      (sampleStage, [pktA], Except.error StageExn.outOfRange) ∧
    sampleStage.deq QueueType.PRIORITY_QUEUE 5 3 =
      (sampleStage, Except.error StageExn.outOfRange) :=
  (enq_deq_out_of_range sampleStage 5 pktA 3).1 (by decide)

/-- C4: for every packet exposing the configured lookup field,
find_next_hop returns the next hop the table maps the field value to when
that value is a key of the table, and fails when it is absent; the failure
is the out-of-range condition that a table miss raises, which the spec
names NoRoute. -/
theorem find_next_hop_routes (s : PIFOPipelineStage) (packet : PIFOPacket)
    (v : Int)
    (hf : packet.getField s.next_hop_lut.look_up_field_name = some v) :
    (∀ nh, s.next_hop_lut.look_up_table.lookup v = some nh →
      (s.find_next_hop packet).2 = Except.ok nh) ∧
    (s.next_hop_lut.look_up_table.lookup v = none →
      (s.find_next_hop packet).2 = Except.error StageExn.outOfRange) := by
  constructor
  · intro nh ht
    simp [PIFOPipelineStage.find_next_hop, LookUpTable.lookup, hf, ht]
  · intro ht
    simp [PIFOPipelineStage.find_next_hop, LookUpTable.lookup, hf, ht]

/-- Witness for find_next_hop_routes: the sample packet has class 1, which
the sample table maps to the enqueue next hop. -/
theorem find_next_hop_routes_witness :
    (sampleStage.find_next_hop pktA).2 = Except.ok nhEnq :=
  (find_next_hop_routes sampleStage pktA 1 rfl).1 nhEnq rfl

/-- C5: for every packet that does not expose the configured lookup field,
find_next_hop fails with the missing-field condition, which is distinct
from the out-of-range condition a table miss (NoRoute) raises, so a caller
can tell the two failures apart. -/
theorem find_next_hop_missing_field (s : PIFOPipelineStage)
    (packet : PIFOPacket)
    (hf : packet.getField s.next_hop_lut.look_up_field_name = none) :
    (s.find_next_hop packet).2 = Except.error StageExn.missingField ∧
    StageExn.missingField ≠ StageExn.outOfRange := by
  constructor
  · simp [PIFOPipelineStage.find_next_hop, LookUpTable.lookup, hf]
  · intro h
    cases h

/-- Witness for find_next_hop_missing_field: a packet without the class
field. -/
theorem find_next_hop_missing_field_witness :
    (sampleStage.find_next_hop pktNoClass).2 =
      Except.error StageExn.missingField ∧
    StageExn.missingField ≠ StageExn.outOfRange :=
  find_next_hop_missing_field sampleStage pktNoClass rfl

/-- C6: find_next_hop mutates nothing: the stage state it returns is the
state it was given (the member functions involved are const-qualified in
the source), so the lookup table and every queue of both banks are
unchanged whether the call succeeds or fails; packets are values in this
embedding and the source takes the packet by const reference. -/
theorem find_next_hop_pure (s : PIFOPipelineStage) (packet : PIFOPacket) :
    (s.find_next_hop packet).1 = s ∧
    (s.find_next_hop packet).1.next_hop_lut = s.next_hop_lut ∧
    ∀ j : Nat,
      (s.find_next_hop packet).1.priority_queue_bank[j]? =
        s.priority_queue_bank[j]? ∧
      (s.find_next_hop packet).1.calendar_queue_bank[j]? =
        s.calendar_queue_bank[j]? :=
  ⟨rfl, rfl, fun _ => ⟨rfl, rfl⟩⟩

/-- C10: the outcome of find_next_hop is a function of the value of the
configured lookup field alone: two packets agreeing on that field receive
the same next hop or fail with the same condition, whatever their other
fields. -/
theorem find_next_hop_field_determined (s : PIFOPipelineStage)
    (p1 p2 : PIFOPacket)
    (h : p1.getField s.next_hop_lut.look_up_field_name =
         p2.getField s.next_hop_lut.look_up_field_name) :
    (s.find_next_hop p1).2 = (s.find_next_hop p2).2 := by
  simp [PIFOPipelineStage.find_next_hop, LookUpTable.lookup, h]

/-- Witness for find_next_hop_field_determined: two packets sharing class 1
but differing in every other field. -/
theorem find_next_hop_field_determined_witness :
    (sampleStage.find_next_hop pktA).2 = (sampleStage.find_next_hop pktB).2 :=
  find_next_hop_field_determined sampleStage pktA pktB rfl

/-- C7: a successful enqueue or dequeue addressed to (queue type, queue id)
changes at most the single queue at that index of the selected bank: the
whole bank of the other discipline is unchanged, and within the addressed
bank every index other than queue id is unchanged. -/
theorem enq_deq_bank_isolation (s : PIFOPipelineStage) (queue_id : Nat)
    (packet : PIFOPacket) (tick j : Nat) (hj : j ≠ queue_id) :
    ((s.enq QueueType.PRIORITY_QUEUE queue_id packet tick).2.2 = Except.ok () →
      (s.enq QueueType.PRIORITY_QUEUE queue_id packet tick).1.calendar_queue_bank =
        s.calendar_queue_bank ∧
      (s.enq QueueType.PRIORITY_QUEUE queue_id packet tick).1.priority_queue_bank[j]? =
        s.priority_queue_bank[j]?) ∧
    ((s.enq QueueType.CALENDAR_QUEUE queue_id packet tick).2.2 = Except.ok () →
      (s.enq QueueType.CALENDAR_QUEUE queue_id packet tick).1.priority_queue_bank =
        s.priority_queue_bank ∧
      (s.enq QueueType.CALENDAR_QUEUE queue_id packet tick).1.calendar_queue_bank[j]? =
        s.calendar_queue_bank[j]?) ∧
    (∀ r, (s.deq QueueType.PRIORITY_QUEUE queue_id tick).2 = Except.ok r →
      (s.deq QueueType.PRIORITY_QUEUE queue_id tick).1.calendar_queue_bank =
        s.calendar_queue_bank ∧
      (s.deq QueueType.PRIORITY_QUEUE queue_id tick).1.priority_queue_bank[j]? =
        s.priority_queue_bank[j]?) ∧
    (∀ r, (s.deq QueueType.CALENDAR_QUEUE queue_id tick).2 = Except.ok r →
      (s.deq QueueType.CALENDAR_QUEUE queue_id tick).1.priority_queue_bank =
        s.priority_queue_bank ∧
      (s.deq QueueType.CALENDAR_QUEUE queue_id tick).1.calendar_queue_bank[j]? =
        s.calendar_queue_bank[j]?) := by
  refine ⟨?_, ?_, ?_, ?_⟩
  · intro hok
    cases hq : s.priority_queue_bank[queue_id]? with
    | none => simp [PIFOPipelineStage.enq, hq] at hok
    | some q =>
      exact ⟨by simp [PIFOPipelineStage.enq, hq],
             by simp [PIFOPipelineStage.enq, hq,
                      List.getElem?_set_ne (Ne.symm hj)]⟩
  · intro hok
    cases hq : s.calendar_queue_bank[queue_id]? with
    | none => simp [PIFOPipelineStage.enq, hq] at hok
    | some q =>
      rcases hqe : q.enq packet (s.prio_computer packet) tick with ⟨q2, r⟩
      cases r with
      | ok u =>
        exact ⟨by simp [PIFOPipelineStage.enq, hq, hqe],
               by simp [PIFOPipelineStage.enq, hq, hqe,
                        List.getElem?_set_ne (Ne.symm hj)]⟩
      | error e => simp [PIFOPipelineStage.enq, hq, hqe] at hok
  · intro r hok
    cases hq : s.priority_queue_bank[queue_id]? with
    | none => simp [PIFOPipelineStage.deq, hq] at hok
    | some q =>
      exact ⟨by simp [PIFOPipelineStage.deq, hq],
             by simp [PIFOPipelineStage.deq, hq,
                      List.getElem?_set_ne (Ne.symm hj)]⟩
  · intro r hok
    cases hq : s.calendar_queue_bank[queue_id]? with
    | none => simp [PIFOPipelineStage.deq, hq] at hok
    | some q =>
      exact ⟨by simp [PIFOPipelineStage.deq, hq],
             by simp [PIFOPipelineStage.deq, hq,
                      List.getElem?_set_ne (Ne.symm hj)]⟩

/-- Witness for enq_deq_bank_isolation: an enqueue into priority queue 0 of
the sample stage leaves the calendar bank and priority queue 1 unchanged. -/
theorem enq_deq_bank_isolation_witness :
    (sampleStage.enq QueueType.PRIORITY_QUEUE 0 pktA 3).1.calendar_queue_bank =
      sampleStage.calendar_queue_bank ∧
    (sampleStage.enq QueueType.PRIORITY_QUEUE 0 pktA 3).1.priority_queue_bank[1]? =
      sampleStage.priority_queue_bank[1]? :=
  (enq_deq_bank_isolation sampleStage 0 pktA 3 1 (by decide)).1 rfl

/-- C8: the sizes of the two banks are the constructor arguments
num_prio_queues and num_cal_queues, and every enq, deq and find_next_hop
preserves both sizes, whether it succeeds or fails: no operation adds or
removes a queue. -/
theorem bank_sizes_invariant :
    (∀ (np nc : Nat) (fname : String) (lut : List (Int × NextHop))
        (f : PIFOPacket → Nat),
      (PIFOPipelineStage.mk_stage np nc fname lut f).priority_queue_bank.length = np ∧
      (PIFOPipelineStage.mk_stage np nc fname lut f).calendar_queue_bank.length = nc) ∧
    (∀ (s : PIFOPipelineStage) (q_type : QueueType) (queue_id : Nat)
        (packet : PIFOPacket) (tick : Nat),
      (s.enq q_type queue_id packet tick).1.priority_queue_bank.length =
        s.priority_queue_bank.length ∧
      (s.enq q_type queue_id packet tick).1.calendar_queue_bank.length =
        s.calendar_queue_bank.length) ∧
    (∀ (s : PIFOPipelineStage) (q_type : QueueType) (queue_id tick : Nat),
      (s.deq q_type queue_id tick).1.priority_queue_bank.length =
        s.priority_queue_bank.length ∧
      (s.deq q_type queue_id tick).1.calendar_queue_bank.length =
        s.calendar_queue_bank.length) ∧
    (∀ (s : PIFOPipelineStage) (packet : PIFOPacket),
      (s.find_next_hop packet).1 = s) := by
  refine ⟨?_, ?_, ?_, ?_⟩
  · intro np nc fname lut f
    simp [PIFOPipelineStage.mk_stage]
  · intro s q_type queue_id packet tick
    cases q_type with
    | PRIORITY_QUEUE =>
      cases hq : s.priority_queue_bank[queue_id]? with
      | none => simp [PIFOPipelineStage.enq, hq]
      | some q => simp [PIFOPipelineStage.enq, hq]
    | CALENDAR_QUEUE =>
      cases hq : s.calendar_queue_bank[queue_id]? with
      | none => simp [PIFOPipelineStage.enq, hq]
      | some q =>
        rcases hqe : q.enq packet (s.prio_computer packet) tick with ⟨q2, r⟩
        cases r <;> simp [PIFOPipelineStage.enq, hq, hqe]
  · intro s q_type queue_id tick
    cases q_type with
    | PRIORITY_QUEUE =>
      cases hq : s.priority_queue_bank[queue_id]? with
      | none => simp [PIFOPipelineStage.deq, hq]
      | some q => simp [PIFOPipelineStage.deq, hq]
    | CALENDAR_QUEUE =>
      cases hq : s.calendar_queue_bank[queue_id]? with
      | none => simp [PIFOPipelineStage.deq, hq]
      | some q => simp [PIFOPipelineStage.deq, hq]
  · intro s packet
    rfl

/-- C9: on every call to enq, whatever the queue type and even when the
queue id is out of range, the priority function is applied to the packet
exactly once; the source computes the priority as the first statement of
enq, before the bounds check, and the trace component records the
applications in evaluation order. -/
theorem enq_prio_computed_once (s : PIFOPipelineStage) (q_type : QueueType)
    (queue_id : Nat) (packet : PIFOPacket) (tick : Nat) :
    (s.enq q_type queue_id packet tick).2.1 = [packet] := by
  cases q_type with
  | PRIORITY_QUEUE =>
    cases hq : s.priority_queue_bank[queue_id]? with
    | none => simp [PIFOPipelineStage.enq, hq]
    | some q => simp [PIFOPipelineStage.enq, hq]
  | CALENDAR_QUEUE =>
    cases hq : s.calendar_queue_bank[queue_id]? with
    | none => simp [PIFOPipelineStage.enq, hq]
    | some q =>
      rcases hqe : q.enq packet (s.prio_computer packet) tick with ⟨q2, r⟩
      cases r <;> simp [PIFOPipelineStage.enq, hq, hqe]

end PIFO
